import Mathlib

/-
Shallow embedding of the gridworld decision engine of
src/agent-env-lab/src/App.jsx: the environment transition `stepEnvironment`,
the stagnation detector `isStuck`/`isABAB`, the information heuristic
`unseenAroundFrom`, the Monte-Carlo rollout evaluator `evaluateAction` and the
anytime planner `pickAction`.

Modelling conventions.
* Grid coordinates are integers; the JS key strings "x,y" are modelled by pairs,
  so the JS `Set` of keys becomes a `Finset (ℤ × ℤ)` and key equality is pair
  equality.
* JS floating-point rewards and probabilities are modelled by rationals.
* Every `Math.random()` draw is replaced by an explicit oracle value carried in
  `StepRand` / `RollRand` / `PRand`: a comparison `Math.random() < p` becomes
  `roll < p` for an oracle roll (rolls of the real program lie in `[0,1)`;
  `StepRandOK` records the nonnegativity the proofs need), and `choice(arr)`
  becomes indexing by an oracle index reduced modulo the list length
  (`choiceIdx`), which reaches exactly the elements the JS call can return.
* The wall-clock anytime loop of `pickAction` is modelled by the number `N` of
  completed `evaluateAction` calls; the JS loop performs the first `N`
  evaluations of the cyclic UP,RIGHT,DOWN,LEFT sequence, and `N = 0` exactly
  when the time budget is zero or negative.
* The JS `Array.sort` call in the ε-override compares possibly `-Infinity`
  means with a subtraction comparator, which is unspecified for ties of
  `-Infinity`; it is determinized here as a stable descending insertion sort.
-/

set_option maxRecDepth 8000

/-- JS `clamp(v,a,b) = Math.max(a, Math.min(b, v))`. -/
def clamp (v a b : ℤ) : ℤ := max a (min b v)

/-- The four movement directions, in the source's `DIRS` enumeration order. -/
inductive Dir
  | up
  | right
  | down
  | left
deriving DecidableEq, Repr

/-- `dx` of a direction record in `DIRS`. -/
def Dir.dx : Dir → ℤ
  | .up => 0
  | .right => 1
  | .down => 0
  | .left => -1

/-- `dy` of a direction record in `DIRS`. -/
def Dir.dy : Dir → ℤ
  | .up => -1
  | .right => 0
  | .down => 1
  | .left => 0

/-- The source's `DIRS` list. -/
def DIRS : List Dir := [.up, .right, .down, .left]

/-- JS `manhattan(a,b)`. -/
def manhattan (a b : ℤ × ℤ) : ℤ := |a.1 - b.1| + |a.2 - b.2|

/-- The in-bounds test `x>=0 && y>=0 && x<width && y<height`. -/
def inBounds (w h : ℤ) (p : ℤ × ℤ) : Prop := 0 ≤ p.1 ∧ 0 ≤ p.2 ∧ p.1 < w ∧ p.2 < h

instance (w h : ℤ) (p : ℤ × ℤ) : Decidable (inBounds w h p) := by
  unfold inBounds; infer_instance

/-- JS `isBlocked(env,x,y)`, abstracted over the obstacle set in force
(the dynamic-obstacle phase reassigns `env.obstacles` before the adversary
phase runs). -/
def isBlockedOn (w h : ℤ) (obs : Finset (ℤ × ℤ)) (p : ℤ × ℤ) : Prop :=
  ¬ inBounds w h p ∨ p ∈ obs

instance (w h : ℤ) (obs : Finset (ℤ × ℤ)) (p : ℤ × ℤ) : Decidable (isBlockedOn w h obs p) := by
  unfold isBlockedOn; infer_instance

/-- JS `choice(arr)` = `arr[Math.floor(Math.random()*arr.length)]` with an
oracle index: on a nonempty list every index below the length is reachable and
the result is `l[i % l.length]`; on an empty list the JS value is `undefined`,
and every caller in the source immediately falls back to a default. -/
def choiceIdx {α : Type} (l : List α) (i : ℕ) (dflt : α) : α :=
  l.getD (i % max l.length 1) dflt

/-- The environment record built by `makeEnv` and mutated by `stepEnvironment`
(GridWorldModel of the spec). -/
structure Env where
  tick : ℕ
  width : ℤ
  height : ℤ
  obstacles : Finset (ℤ × ℤ)
  agent : ℤ × ℤ
  goal : ℤ × ℤ
  adversary : Option (ℤ × ℤ)
  reward : ℚ
  done : Bool
  seen : Finset (ℤ × ℤ)
  recent : List (ℤ × ℤ)
  bestDist : ℤ
  lastImprovedTick : ℕ
deriving DecidableEq

/-- `cfg.adversaryType`. -/
inductive AdvType
  | random
  | chaser
deriving DecidableEq, Repr

/-- The configuration fields consumed by the decision engine.
`partObs` models `cfg.partialObs`. -/
structure Cfg where
  partObs : Bool
  obsRadius : ℤ
  slipProb : ℚ
  sensorNoise : ℚ
  dynamicObstacles : Bool
  episodic : Bool
  adversaryType : AdvType
deriving DecidableEq

/-- The `Math.random()` draws of one `stepEnvironment` call: the slip roll and
slip pick, a per-cell sensor-noise roll, a per-obstacle direction index and the
random adversary's pick. -/
structure StepRand where
  slipRoll : ℚ
  slipIdx : ℕ
  noiseRoll : ℤ × ℤ → ℚ
  obsIdx : ℤ × ℤ → ℕ
  advIdx : ℕ

/-- `Math.random()` values lie in `[0,1)`; the determinism proofs only need
nonnegativity of the rolls. -/
def StepRandOK (r : StepRand) : Prop := 0 ≤ r.slipRoll ∧ ∀ p, 0 ≤ r.noiseRoll p

/-- JS `cloneEnv`: a fresh object with `new Set` copies of `obstacles` and
`seen`, spread copies of the point records, and an array copy of `recent` —
value-for-value identical to its argument. -/
def cloneEnv (e : Env) : Env :=
  { tick := e.tick, width := e.width, height := e.height,
    obstacles := e.obstacles,
    agent := (e.agent.1, e.agent.2),
    goal := (e.goal.1, e.goal.2),
    adversary := match e.adversary with
      | some p => some (p.1, p.2)
      | none => none,
    reward := e.reward, done := e.done,
    seen := e.seen,
    recent := e.recent,
    bestDist := e.bestDist, lastImprovedTick := e.lastImprovedTick }

/-- The stochastic slip: with `Math.random() < cfg.slipProb`, the chosen action
is replaced by `choice` of the three other directions. -/
def slippedAction (cfg : Cfg) (r : StepRand) (action : Dir) : Dir :=
  if r.slipRoll < cfg.slipProb then
    choiceIdx (DIRS.filter (fun d => decide (d ≠ action))) r.slipIdx action
  else action

/-- The agent move: stay put if the target is blocked, else move to the
(clamped) target cell. -/
def moveAgent (env : Env) (a : Dir) : ℤ × ℤ :=
  let nx := env.agent.1 + a.dx
  let ny := env.agent.2 + a.dy
  if isBlockedOn env.width env.height env.obstacles (nx, ny) then env.agent
  else (clamp nx 0 (env.width - 1), clamp ny 0 (env.height - 1))

/-- The square of offsets `dx,dy ∈ [-r, r]` scanned by the reveal loops. -/
def offsets (r : ℤ) : Finset (ℤ × ℤ) := Finset.Icc (-r) r ×ˢ Finset.Icc (-r) r

/-- All grid cells, as filled in by the full-observability reveal. -/
def allCells (w h : ℤ) : Finset (ℤ × ℤ) := Finset.Icc 0 (w - 1) ×ˢ Finset.Icc 0 (h - 1)

/-- The observation-reveal phase: under partial observability, every in-bounds
cell of the radius square around the new agent position whose per-cell noise
roll does not fire is added to `seen`; otherwise the whole grid is added once
`seen` is not yet full. -/
def revealPhase (env : Env) (cfg : Cfg) (r : StepRand) (ag : ℤ × ℤ) : Finset (ℤ × ℤ) :=
  if cfg.partObs then
    env.seen ∪ ((offsets cfg.obsRadius).image (fun o => (ag.1 + o.1, ag.2 + o.2))).filter
      (fun p => inBounds env.width env.height p ∧ ¬ (r.noiseRoll p < cfg.sensorNoise))
  else if (env.seen.card : ℤ) < env.width * env.height then
    env.seen ∪ allCells env.width env.height
  else env.seen

/-- The clamped destination an obstacle at `o` attempts this tick. -/
def obstacleTarget (env : Env) (r : StepRand) (o : ℤ × ℤ) : ℤ × ℤ :=
  let d := DIRS.getD (r.obsIdx o % 4) Dir.up
  (clamp (o.1 + d.dx) 0 (env.width - 1), clamp (o.2 + d.dy) 0 (env.height - 1))

/-- One obstacle's move attempt: accepted unless the destination is blocked in
the pre-move obstacle set or coincides with the (already moved) agent or the
goal; a rejected obstacle stays put.  `ag` is the agent position after this
tick's move. -/
def moveObstacle (env : Env) (ag : ℤ × ℤ) (r : StepRand) (o : ℤ × ℤ) : ℤ × ℤ :=
  let t := obstacleTarget env r o
  if ¬ isBlockedOn env.width env.height env.obstacles t ∧ ag ≠ t ∧ env.goal ≠ t then t
  else o

/-- The dynamic-obstacle phase: build the moved set from the pre-move set, then
delete the agent, goal and (if present) adversary cells. -/
def dynPhase (env : Env) (r : StepRand) (ag : ℤ × ℤ) : Finset (ℤ × ℤ) :=
  let moved := env.obstacles.image (moveObstacle env ag r)
  let m1 := (moved.erase ag).erase env.goal
  match env.adversary with
  | some p => m1.erase p
  | none => m1

/-- The adversary phase: candidate cells are the four clamped neighbours that
are not blocked (against the obstacle set after the dynamic phase); the chaser
takes the candidate closest to the agent (first-enumerated on ties, reduce
seeded with the first candidate), the random walker picks one by oracle index;
with no candidate the adversary stays put.  Returns the new adversary cell and
the collision penalty. -/
def advPhase (env : Env) (cfg : Cfg) (r : StepRand) (obs : Finset (ℤ × ℤ)) (ag : ℤ × ℤ) :
    Option (ℤ × ℤ) × ℚ :=
  match env.adversary with
  | none => (none, 0)
  | some adv =>
    let cand := (DIRS.map (fun d =>
        (clamp (adv.1 + d.dx) 0 (env.width - 1), clamp (adv.2 + d.dy) 0 (env.height - 1)))).filter
      (fun p => decide (¬ isBlockedOn env.width env.height obs p))
    let mv := match cfg.adversaryType with
      | .chaser => cand.foldl (fun b c => if manhattan c ag < manhattan b ag then c else b)
          (cand.headD adv)
      | .random => choiceIdx cand r.advIdx adv
    (some mv, if mv = ag then (-5 : ℚ) else 0)

/-- `recent.push(key); if (recent.length > 16) recent.shift()`. -/
def recentPush (l : List (ℤ × ℤ)) (p : ℤ × ℤ) : List (ℤ × ℤ) :=
  let l2 := l ++ [p]
  if l2.length > 16 then l2.tail else l2

/-- JS `stepEnvironment(env,cfg,action)` (the spec's `TransitionEngine.advance`),
with the call's random draws supplied by `r`. -/
def stepEnvironment (env : Env) (cfg : Cfg) (r : StepRand) (action : Dir) : Env :=
  if env.done then env
  else
    let a := slippedAction cfg r action
    let ag := moveAgent env a
    let seen2 := revealPhase env cfg r ag
    let obs2 := if cfg.dynamicObstacles ∧ env.tick % 3 = 0 then dynPhase env r ag
      else env.obstacles
    let adv2 := advPhase env cfg r obs2 ag
    let rew := -(1/20 : ℚ) + (if ag = env.goal then (10 : ℚ) else 0) + adv2.2
    let tick2 := env.tick + 1
    let dist := manhattan ag env.goal
    let best2 := if dist < env.bestDist then (dist, tick2)
      else (env.bestDist, env.lastImprovedTick)
    { env with
      tick := tick2, agent := ag, seen := seen2, obstacles := obs2,
      adversary := adv2.1, reward := env.reward + rew,
      recent := recentPush env.recent ag,
      bestDist := best2.1, lastImprovedTick := best2.2,
      done := if cfg.episodic ∧ ag = env.goal then true else env.done }

/-- Repeated `stepEnvironment` calls along an action sequence, consuming one
oracle per step. -/
def runSeq (cfg : Cfg) : Env → (ℕ → StepRand) → List Dir → Env
  | env, _, [] => env
  | env, rs, a :: rest => runSeq cfg (stepEnvironment env cfg (rs 0) a) (fun i => rs (i + 1)) rest

/-- JS `isABAB(recent)`. -/
def isABAB (recent : List (ℤ × ℤ)) : Bool :=
  if recent.length < 4 then false
  else decide (recent.getD (recent.length - 1) (0, 0) = recent.getD (recent.length - 3) (0, 0)
    ∧ recent.getD (recent.length - 2) (0, 0) = recent.getD (recent.length - 4) (0, 0))

/-- JS `isStuck(env)` (StagnationDetector): needs at least 6 recorded
positions, then fires on no distance improvement for 18 ticks, an A-B-A-B
alternation, or at most 2 distinct cells among the last 6. -/
def isStuck (env : Env) : Bool :=
  if env.recent.length < 6 then false
  else
    let noProgress := decide ((18 : ℤ) ≤ (env.tick : ℤ) - (env.lastImprovedTick : ℤ))
    let abab := isABAB env.recent
    let tail6 := env.recent.drop (env.recent.length - 6)
    let tinyVar := decide (tail6.toFinset.card ≤ 2)
    noProgress || abab || tinyVar

/-- JS `unseenAroundFrom(pos, env, cfg)` (InformationHeuristic): the number of
in-bounds cells within the radius square of `pos` not yet in `seen`. -/
def unseenAroundFrom (pos : ℤ × ℤ) (env : Env) (cfg : Cfg) : ℕ :=
  (((offsets cfg.obsRadius).image (fun o => (pos.1 + o.1, pos.2 + o.2))).filter
    (fun p => inBounds env.width env.height p ∧ p ∉ env.seen)).card

/-- The `Math.random()` draws of one rollout: per simulated tick a transition
oracle and, for ticks after the first, the index of the `choice(DIRS)` action. -/
structure RollRand where
  stepR : ℕ → StepRand
  actIdx : ℕ → ℕ

/-- The rollout loop body of `evaluateAction`: counting down the remaining
horizon, step the simulated environment, add distance shaping, cumulative info
gain, the early loop penalty and the goal bonus.  Also returns the number of
times the +5 goal bonus was added (`hits`), which instruments the
`total += 5` branch. -/
def rolloutGo (cfg : Cfg) (action : Dir) (rr : RollRand) (startSeen : ℕ)
    (recentSet : Finset (ℤ × ℤ)) : ℕ → ℕ → Env → ℚ → ℕ → ℚ × ℕ
  | 0, _, _, total, hits => (total, hits)
  | rem + 1, t, sim, total, hits =>
    if sim.done then (total, hits)
    else
      let a := if t = 0 then action else DIRS.getD (rr.actIdx t % 4) Dir.up
      let sim2 := stepEnvironment sim cfg (rr.stepR t) a
      let t1 := total + -(manhattan sim2.agent sim2.goal : ℚ) * (1/50)
      let t2 := t1 + (((sim2.seen.card : ℤ) - (startSeen : ℤ) : ℤ) : ℚ) * (1/50)
      let t3 := if t < 6 ∧ sim2.agent ∈ recentSet then t2 - (1/10) else t2
      if sim2.agent = sim2.goal then
        rolloutGo cfg action rr startSeen recentSet rem (t + 1) sim2 (t3 + 5) (hits + 1)
      else rolloutGo cfg action rr startSeen recentSet rem (t + 1) sim2 t3 hits

/-- JS `evaluateAction(env,cfg,action,horizon)`: clone the model, capture the
starting `seen` size and the recent-position set, run the rollout loop.
Returns the accumulated score and the instrumented goal-bonus count. -/
def evaluateRun (env : Env) (cfg : Cfg) (action : Dir) (horizon : ℕ) (rr : RollRand) : ℚ × ℕ :=
  let sim := cloneEnv env
  rolloutGo cfg action rr sim.seen.card sim.recent.toFinset horizon 0 sim 0 0

/-- The scalar returned by `evaluateAction`. -/
def evaluateAction (env : Env) (cfg : Cfg) (action : Dir) (horizon : ℕ) (rr : RollRand) : ℚ :=
  (evaluateRun env cfg action horizon rr).1

/-- How many times the +5 goal bonus was added during the rollout. -/
def evalHits (env : Env) (cfg : Cfg) (action : Dir) (horizon : ℕ) (rr : RollRand) : ℕ :=
  (evaluateRun env cfg action horizon rr).2

/-- `evaluateAction` as seen by its caller: the returned scalar together with
the caller's model binding after the call (all mutations hit the clone). -/
def evaluateActionRun (env : Env) (cfg : Cfg) (action : Dir) (horizon : ℕ) (rr : RollRand) :
    ℚ × Env :=
  ((evaluateRun env cfg action horizon rr).1, env)

/-- The planner's returned decision modes: `'explore'` or `'mc'`. -/
inductive Mode
  | explore
  | mc
deriving DecidableEq, Repr

/-- The record returned by `pickAction`: the chosen action, per-direction mean
estimates (empty in explore mode), the rollout iteration count and the mode. -/
structure Decision where
  action : Dir
  estimates : List (Dir × ℚ)
  iters : ℕ
  mode : Mode
deriving DecidableEq, Repr

/-- The `Math.random()` draws of one `pickAction` call: per completed rollout
its oracle, the ε-override roll and the ε pick index. -/
structure PRand where
  evalRands : ℕ → RollRand
  epsRoll : ℚ
  epsIdx : ℕ

/-- The rollout horizon chosen by `pickAction`. -/
def mcHorizon (cfg : Cfg) : ℕ := if cfg.partObs then 14 else 10

/-- The direction evaluated by the `i`-th rollout of the anytime loop, which
cycles through `DIRS` in order. -/
def dirAt (i : ℕ) : Dir := DIRS.getD (i % 4) Dir.up

/-- `rec.n` for direction `d` after `N` completed rollouts. -/
def sampleCount (N : ℕ) (d : Dir) : ℕ :=
  ((List.range N).filter (fun i => decide (dirAt i = d))).length

/-- `rec.s` for direction `d` after `N` completed rollouts. -/
def sampleSum (env : Env) (cfg : Cfg) (pr : PRand) (N : ℕ) (d : Dir) : ℚ :=
  ((List.range N).filter (fun i => decide (dirAt i = d))).foldl
    (fun acc i => acc + evaluateAction env cfg d (mcHorizon cfg) (pr.evalRands i)) 0

/-- The per-direction mean `rec.n ? rec.s/rec.n : -Infinity`. -/
def meanScore (env : Env) (cfg : Cfg) (pr : PRand) (N : ℕ) (d : Dir) : WithBot ℚ :=
  if sampleCount N d = 0 then ⊥
  else ((sampleSum env cfg pr N d / (sampleCount N d : ℚ) : ℚ) : WithBot ℚ)

/-- One iteration of the source's best-so-far scan
(`if (legal) { if (score > best) update }`), shared by the explore fallback and
the mean-score selection (where every direction is "legal"). -/
def amStep {α β : Type} [LinearOrder β] (legal : α → Bool) (score : α → WithBot β)
    (acc : α × WithBot β) (x : α) : α × WithBot β :=
  if legal x then (if acc.2 < score x then (x, score x) else acc) else acc

/-- Stable descending insertion for the determinized ε-override sort. -/
def insertByMean (mean : Dir → WithBot ℚ) (d : Dir) : List Dir → List Dir
  | [] => [d]
  | e :: es => if mean e ≤ mean d then d :: e :: es else e :: insertByMean mean d es

/-- Determinization of `[...DIRS].sort((a,b) => bM - aM)`: a stable descending
sort by mean (the JS comparator is unspecified when two `-Infinity` means meet). -/
def sortByMeanDesc (mean : Dir → WithBot ℚ) (l : List Dir) : List Dir :=
  l.foldr (insertByMean mean) []

/-- The Monte-Carlo part of `pickAction` after `N` completed rollouts: pick the
direction with the best mean (zero-sample directions score `-Infinity`, the
first-enumerated direction is the seed), then with probability 0.05 override
the pick by a uniform choice among the top `max 2 (len/2)` sorted directions. -/
def mcDecision (env : Env) (cfg : Cfg) (pr : PRand) (N : ℕ) : Decision :=
  let mean := meanScore env cfg pr N
  let best := (DIRS.foldl (amStep (fun _ => true) mean) (Dir.up, ⊥)).1
  let sorted := sortByMeanDesc mean DIRS
  let act := if pr.epsRoll < (1/20 : ℚ) then
      choiceIdx (sorted.take (max 2 (sorted.length / 2))) pr.epsIdx best
    else best
  { action := act,
    estimates := DIRS.map (fun d =>
      (d, if sampleCount N d = 0 then 0 else sampleSum env cfg pr N d / (sampleCount N d : ℚ))),
    iters := N, mode := Mode.mc }

/-- The clamped one-step cell `(nx, ny)` inspected by the explore fallback for
direction `d`. -/
def exploreTarget (env : Env) (d : Dir) : ℤ × ℤ :=
  (clamp (env.agent.1 + d.dx) 0 (env.width - 1), clamp (env.agent.2 + d.dy) 0 (env.height - 1))

/-- Whether the explore fallback considers direction `d` (its clamped target is
not blocked). -/
def exploreLegalB (env : Env) (d : Dir) : Bool :=
  decide (¬ isBlockedOn env.width env.height env.obstacles (exploreTarget env d))

/-- The fallback's information score of direction `d`, as compared against the
running `-Infinity`-seeded best. -/
def exploreScoreW (env : Env) (cfg : Cfg) (d : Dir) : WithBot ℕ :=
  ((unseenAroundFrom (exploreTarget env d) env cfg : ℕ) : WithBot ℕ)

/-- The unclamped one-step target of direction `d`, as the spec's
"one-step target cell" reads. -/
def rawTarget (env : Env) (d : Dir) : ℤ × ℤ := (env.agent.1 + d.dx, env.agent.2 + d.dy)

/-- JS `pickAction(env,cfg,budgetMs)` (the spec's `AnytimePlanner.chooseAction`):
if stuck under partial observability, return the information-seeking direction
when any direction is considered, otherwise fall through to the anytime
Monte-Carlo phase with `N` completed rollouts. -/
def pickAction (env : Env) (cfg : Cfg) (pr : PRand) (N : ℕ) : Decision :=
  if isStuck env && cfg.partObs then
    let res := DIRS.foldl (amStep (exploreLegalB env) (exploreScoreW env cfg)) (Dir.up, ⊥)
    if (⊥ : WithBot ℕ) < res.2 then
      { action := res.1, estimates := [], iters := 0, mode := Mode.explore }
    else mcDecision env cfg pr N
  else mcDecision env cfg pr N

/- Concrete fixtures used by the scenario theorems, counterexamples and
witnesses below. -/

/-- An all-zero transition oracle (rolls 0, indices 0). -/
def rand0 : StepRand := ⟨0, 0, fun _ => 0, fun _ => 0, 0⟩

/-- An all-zero rollout oracle. -/
def rr0 : RollRand := ⟨fun _ => rand0, fun _ => 0⟩

/-- C1 scenario configuration: fully observable, deterministic, static,
episodic. -/
def cfgC1 : Cfg :=
  { partObs := false, obsRadius := 3, slipProb := 0, sensorNoise := 0,
    dynamicObstacles := false, episodic := true, adversaryType := .random }

/-- C1 scenario model: 5×5, no obstacles, agent (0,4), goal (4,0). -/
def envC1 : Env :=
  { tick := 0, width := 5, height := 5, obstacles := ∅, agent := (0, 4),
    goal := (4, 0), adversary := none, reward := 0, done := false,
    seen := {(0, 4)}, recent := [(0, 4)], bestDist := 8, lastImprovedTick := 0 }

/-- The C1 action sequence RIGHT×4, UP×4. -/
def actsC1 : List Dir := [.right, .right, .right, .right, .up, .up, .up, .up]

/-- The C1 run. -/
def runC1 : Env := runSeq cfgC1 envC1 (fun _ => rand0) actsC1

/-- C4 witness configuration: deterministic, partially observable. -/
def cfgC4 : Cfg :=
  { partObs := true, obsRadius := 2, slipProb := 0, sensorNoise := 0,
    dynamicObstacles := false, episodic := true, adversaryType := .random }

/-- C4 witness model: 3×3, no obstacles, no adversary. -/
def envC4 : Env :=
  { tick := 0, width := 3, height := 3, obstacles := ∅, agent := (0, 0),
    goal := (2, 2), adversary := none, reward := 0, done := false,
    seen := {(0, 0)}, recent := [(0, 0)], bestDist := 4, lastImprovedTick := 0 }

/-- C4 witness action sequence. -/
def actsC4 : List Dir := [.right, .down]

/-- A second, different oracle with nonnegative rolls. -/
def randB : StepRand := ⟨1/2, 1, fun _ => 1/3, fun _ => 2, 3⟩

/-- C5 witness model with too short a history. -/
def envC5a : Env := { envC4 with recent := [(0, 0), (1, 0)] }

/-- C5 witness model with the A-B-A-B history and a recently improved
best distance. -/
def envC5b : Env :=
  { envC4 with
    tick := 100
    lastImprovedTick := 95
    recent := [(1, 1), (2, 1), (1, 1), (2, 1), (1, 1), (2, 1)] }

/-- C6 model: already terminal, so every rollout returns 0 immediately. -/
def envC6 : Env :=
  { tick := 0, width := 3, height := 3, obstacles := ∅, agent := (0, 0),
    goal := (2, 2), adversary := none, reward := 0, done := true,
    seen := {(0, 0)}, recent := [(0, 0)], bestDist := 4, lastImprovedTick := 0 }

/-- C6 configuration (not partially observable, so the explore fallback is
off). -/
def cfgC6 : Cfg :=
  { partObs := false, obsRadius := 1, slipProb := 0, sensorNoise := 0,
    dynamicObstacles := false, episodic := true, adversaryType := .random }

/-- C6 counterexample planner oracle: the ε-override fires (`epsRoll = 0`) and
picks index 1 of the sorted top-2 slice. -/
def prC6 : PRand := ⟨fun _ => rr0, 0, 1⟩

/-- C6 witness planner oracle: the ε-override does not fire. -/
def prC6w : PRand := ⟨fun _ => rr0, 1, 0⟩

/-- C7/C10 model: dynamic tick, one obstacle at (1,1), adversary at (2,1). -/
def envA : Env :=
  { tick := 0, width := 4, height := 4, obstacles := {(1, 1)}, agent := (0, 0),
    goal := (3, 3), adversary := some (2, 1), reward := 0, done := false,
    seen := {(0, 0)}, recent := [(0, 0)], bestDist := 6, lastImprovedTick := 0 }

/-- C7/C10 configuration with dynamic obstacles on. -/
def cfgA : Cfg :=
  { partObs := false, obsRadius := 1, slipProb := 0, sensorNoise := 0,
    dynamicObstacles := true, episodic := true, adversaryType := .random }

/-- C7/C10 oracle: every obstacle attempts to move RIGHT (`DIRS` index 1). -/
def randA7 : StepRand := ⟨0, 0, fun _ => 0, fun _ => 1, 0⟩

/-- C7 witness model: two obstacles, the first one's attempted destination is
occupied by the second. -/
def envC7w : Env := { envA with obstacles := {(1, 1), (2, 1)}, adversary := none }

/-- C8 model: stuck (A-B-A-B) agent in the corner (0,0); the two in-bounds
neighbour cells are obstacles, so no direction has an in-bounds unobstructed
one-step target. -/
def envC8 : Env :=
  { tick := 0, width := 3, height := 3, obstacles := {(1, 0), (0, 1)},
    agent := (0, 0), goal := (2, 2), adversary := none, reward := 0,
    done := false, seen := {(0, 0)},
    recent := [(0, 0), (1, 0), (0, 0), (1, 0), (0, 0), (1, 0)],
    bestDist := 4, lastImprovedTick := 0 }

/-- C8 configuration: partially observable with radius 1. -/
def cfgC8 : Cfg :=
  { partObs := true, obsRadius := 1, slipProb := 0, sensorNoise := 0,
    dynamicObstacles := false, episodic := true, adversaryType := .random }

/-- C8 planner oracle (unused by the explore fallback). -/
def prC8 : PRand := ⟨fun _ => rr0, 1, 0⟩

/-- C9 model: agent one step left of the goal on a 2×1 strip. -/
def envC9 : Env :=
  { tick := 0, width := 2, height := 1, obstacles := ∅, agent := (0, 0),
    goal := (1, 0), adversary := none, reward := 0, done := false,
    seen := {(0, 0)}, recent := [(0, 0)], bestDist := 1, lastImprovedTick := 0 }

/-- C9 configuration: non-episodic, so the simulated agent can sit on the goal. -/
def cfgC9 : Cfg :=
  { partObs := false, obsRadius := 1, slipProb := 0, sensorNoise := 0,
    dynamicObstacles := false, episodic := false, adversaryType := .random }

/-- C10 merge model: two obstacles whose accepted moves share the destination
(1,0). -/
def envM : Env :=
  { tick := 0, width := 5, height := 5, obstacles := {(0, 0), (2, 0)},
    agent := (4, 4), goal := (3, 3), adversary := none, reward := 0,
    done := false, seen := {(4, 4)}, recent := [(4, 4)], bestDist := 2,
    lastImprovedTick := 0 }

/-- C10 oracle: the obstacle at (0,0) moves RIGHT, the one at (2,0) moves LEFT. -/
def randM : StepRand := ⟨0, 0, fun _ => 0, fun o => if o = (0, 0) then 1 else 3, 0⟩

/- Helper lemmas. -/

/-- The clone copies every field value. -/
theorem cloneEnv_eq (e : Env) : cloneEnv e = e := by
  rcases e with ⟨t, w, h, obs, ag, gl, adv, rew, dn, sn, rc, bd, li⟩
  cases adv <;> rfl

/-- The reveal phase only adds cells to `seen`. -/
theorem seen_subset_revealPhase (env : Env) (cfg : Cfg) (r : StepRand) (ag : ℤ × ℤ) :
    env.seen ⊆ revealPhase env cfg r ag := by
  unfold revealPhase
  split_ifs
  · exact Finset.subset_union_left
  · exact Finset.subset_union_left
  · exact Finset.Subset.refl _

/-- The dynamic-obstacle phase cannot grow the obstacle set. -/
theorem dynPhase_card_le (env : Env) (r : StepRand) (ag : ℤ × ℤ) :
    (dynPhase env r ag).card ≤ env.obstacles.card := by
  unfold dynPhase
  have himg : (env.obstacles.image (moveObstacle env ag r)).card ≤ env.obstacles.card :=
    Finset.card_image_le
  have h2 : (((env.obstacles.image (moveObstacle env ag r)).erase ag).erase env.goal).card ≤
      env.obstacles.card :=
    le_trans (Finset.card_le_card (Finset.erase_subset _ _))
      (le_trans (Finset.card_le_card (Finset.erase_subset _ _)) himg)
  rcases env.adversary with _ | p
  · exact h2
  · exact le_trans (Finset.card_le_card (Finset.erase_subset _ _)) h2

/-- C2: `RolloutEvaluator.evaluate` never mutates the caller's model: the clone
it simulates on is a complete value copy (`cloneEnv env = env`), and the
caller's binding after the call is the untouched original, so `tick`, `agent`,
`observedCells` and `cumulativeReward` are all unchanged — over any number of
calls, since each call only reads `env`. -/
theorem c2_rollout_isolation (env : Env) (cfg : Cfg) (a : Dir) (h : ℕ) (rr : RollRand) :
    cloneEnv env = env ∧ (evaluateActionRun env cfg a h rr).2 = env ∧
    (evaluateActionRun env cfg a h rr).2.tick = env.tick ∧
    (evaluateActionRun env cfg a h rr).2.agent = env.agent ∧
    (evaluateActionRun env cfg a h rr).2.seen = env.seen ∧
    (evaluateActionRun env cfg a h rr).2.reward = env.reward :=
  ⟨cloneEnv_eq env, rfl, rfl, rfl, rfl, rfl⟩

/-- C3: one `advance` never removes an observed cell and never increases
`bestDistanceToGoal` (terminal or not, so in particular while non-terminal). -/
theorem c3_monotonicity (env : Env) (cfg : Cfg) (r : StepRand) (a : Dir) :
    env.seen ⊆ (stepEnvironment env cfg r a).seen ∧
    env.seen.card ≤ (stepEnvironment env cfg r a).seen.card ∧
    (stepEnvironment env cfg r a).bestDist ≤ env.bestDist := by
  have hsub : env.seen ⊆ (stepEnvironment env cfg r a).seen ∧
      (stepEnvironment env cfg r a).bestDist ≤ env.bestDist := by
    by_cases hd : env.done = true
    · simp only [stepEnvironment, hd, if_true]
      exact ⟨Finset.Subset.refl _, le_refl _⟩
    · simp only [stepEnvironment, hd, if_false]
      constructor
      · exact seen_subset_revealPhase env cfg r _
      · by_cases hlt : manhattan (moveAgent env (slippedAction cfg r a)) env.goal < env.bestDist
        · rw [if_pos hlt]
          exact le_of_lt hlt
        · rw [if_neg hlt]
          exact le_refl _
  exact ⟨hsub.1, Finset.card_le_card hsub.1, hsub.2⟩

/-- C5: `StagnationDetector.isStuck` is false for any model with fewer than 6
recorded positions, and true for any model whose history is the A-B-A-B list
`[(1,1),(2,1),(1,1),(2,1),(1,1),(2,1)]`, whatever `tick`, `bestDistanceToGoal`
and `bestDistanceTick` are (so in particular even if the best distance has just
improved). -/
theorem c5_isStuck :
    (∀ env : Env, env.recent.length < 6 → isStuck env = false) ∧
    (∀ env : Env, env.recent = [(1, 1), (2, 1), (1, 1), (2, 1), (1, 1), (2, 1)] →
      isStuck env = true) := by
  constructor
  · intro env h
    simp [isStuck, h]
  · intro env h
    simp [isStuck, h]
    exact Or.inr (by decide)

/-- C5 witness: a concrete 2-entry history is not stuck; the concrete A-B-A-B
history (with the best distance improved 5 ticks ago) is stuck. -/
theorem c5_isStuck_witness :
    isStuck envC5a = false ∧ isStuck envC5b = true :=
  ⟨c5_isStuck.1 envC5a (by decide), c5_isStuck.2 envC5b (by decide)⟩

/-- C10: `advance` never increases the obstacle count; with dynamic obstacles
enabled the count can strictly drop in one tick, both by two obstacles merging
into a shared accepted destination and by an obstacle landing on the
adversary's cell and being deleted. -/
theorem c10_obstacle_count :
    (∀ (env : Env) (cfg : Cfg) (r : StepRand) (a : Dir),
      (stepEnvironment env cfg r a).obstacles.card ≤ env.obstacles.card) ∧
    (envM.obstacles.card = 2 ∧ cfgA.dynamicObstacles = true ∧
      (stepEnvironment envM cfgA randM Dir.up).obstacles.card = 1) ∧
    (envA.obstacles.card = 1 ∧ envA.adversary = some (2, 1) ∧
      (stepEnvironment envA cfgA randA7 Dir.right).obstacles.card = 0) := by
  refine ⟨?_, by with_unfolding_all decide, by with_unfolding_all decide⟩
  intro env cfg r a
  by_cases hd : env.done = true
  · unfold stepEnvironment
    rw [if_pos hd]
  · unfold stepEnvironment
    rw [if_neg hd]
    dsimp only
    by_cases hdyn : cfg.dynamicObstacles = true ∧ env.tick % 3 = 0
    · rw [if_pos hdyn]
      exact dynPhase_card_le env r _
    · rw [if_neg hdyn]

/-- C1 counterexample: on the claimed scenario (5×5 grid, no obstacles, agent
(0,4), goal (4,0), `slipProb = 0`, episodic, RIGHT×4 then UP×4) the run does
reach the goal at tick 8 with `terminal = true`, but the cumulative reward is
not `-0.05*7 + 10`: each of the 8 ticks pays the step cost, so the claimed
value 9.65 disagrees with the computed 9.6. -/
theorem c1_counterexample :
    runC1.tick = 8 ∧ runC1.done = true ∧ runC1.agent = runC1.goal ∧
    ¬ (runC1.reward = -(1/20 : ℚ) * 7 + 10) := by
  with_unfolding_all decide

/-- C1 amended: the scenario run reaches the goal exactly at tick 8 with
`terminal = true` and cumulative reward `-0.05*8 + 10` (seven plain step costs
plus a terminal tick paying both the step cost and the +10 bonus). -/
theorem c1_goal_scenario :
    runC1.tick = 8 ∧ runC1.done = true ∧ runC1.agent = (4, 0) ∧
    runC1.agent = runC1.goal ∧ runC1.reward = -(1/20 : ℚ) * 8 + 10 := by
  with_unfolding_all decide

/-- Specification of the source's best-so-far scan: folding `amStep` over a
list either leaves the seed untouched (and then no considered element beats the
seed score), or returns a considered element `x` of the list that strictly
beats the seed and every considered element before it, and is not beaten by any
considered element after it. -/
theorem amFold_spec {α β : Type} [LinearOrder β] (legal : α → Bool) (score : α → WithBot β) :
    ∀ (l : List α) (b0 : α) (m0 : WithBot β),
      (List.foldl (amStep legal score) (b0, m0) l = (b0, m0) ∧
        ∀ x ∈ l, legal x = true → score x ≤ m0) ∨
      (∃ l₁ x l₂, l = l₁ ++ x :: l₂ ∧ legal x = true ∧
        List.foldl (amStep legal score) (b0, m0) l = (x, score x) ∧ m0 < score x ∧
        (∀ y ∈ l₁, legal y = true → score y < score x) ∧
        (∀ y ∈ l₂, legal y = true → score y ≤ score x)) := by
  intro l
  induction l with
  | nil =>
    intro b0 m0
    left
    exact ⟨rfl, by simp⟩
  | cons a l ih =>
    intro b0 m0
    by_cases hla : legal a = true
    · by_cases hsc : m0 < score a
      · have hstep : amStep legal score (b0, m0) a = (a, score a) := by
          simp [amStep, hla, hsc]
        rcases ih a (score a) with ⟨heq, hall⟩ | ⟨l₁, x, l₂, hsplit, hx, heq, hlt, hbef, haft⟩
        · right
          refine ⟨[], a, l, rfl, hla, ?_, hsc, by simp, hall⟩
          rw [List.foldl_cons, hstep]
          exact heq
        · right
          refine ⟨a :: l₁, x, l₂, by rw [hsplit, List.cons_append], hx, ?_, lt_trans hsc hlt, ?_, haft⟩
          · rw [List.foldl_cons, hstep]
            exact heq
          · intro y hy hly
            rcases List.mem_cons.mp hy with rfl | hy2
            · exact hlt
            · exact hbef y hy2 hly
      · have hstep : amStep legal score (b0, m0) a = (b0, m0) := by
          simp [amStep, hla, hsc]
        rcases ih b0 m0 with ⟨heq, hall⟩ | ⟨l₁, x, l₂, hsplit, hx, heq, hlt, hbef, haft⟩
        · left
          refine ⟨?_, ?_⟩
          · rw [List.foldl_cons, hstep]
            exact heq
          · intro y hy hly
            rcases List.mem_cons.mp hy with rfl | hy2
            · exact not_lt.mp hsc
            · exact hall y hy2 hly
        · right
          refine ⟨a :: l₁, x, l₂, by rw [hsplit, List.cons_append], hx, ?_, hlt, ?_, haft⟩
          · rw [List.foldl_cons, hstep]
            exact heq
          · intro y hy hly
            rcases List.mem_cons.mp hy with rfl | hy2
            · exact lt_of_le_of_lt (not_lt.mp hsc) hlt
            · exact hbef y hy2 hly
    · have hstep : amStep legal score (b0, m0) a = (b0, m0) := by
        simp [amStep, hla]
      rcases ih b0 m0 with ⟨heq, hall⟩ | ⟨l₁, x, l₂, hsplit, hx, heq, hlt, hbef, haft⟩
      · left
        refine ⟨?_, ?_⟩
        · rw [List.foldl_cons, hstep]
          exact heq
        · intro y hy hly
          rcases List.mem_cons.mp hy with rfl | hy2
          · exact absurd hly hla
          · exact hall y hy2 hly
      · right
        refine ⟨a :: l₁, x, l₂, by rw [hsplit, List.cons_append], hx, ?_, hlt, ?_, haft⟩
        · rw [List.foldl_cons, hstep]
          exact heq
        · intro y hy hly
          rcases List.mem_cons.mp hy with rfl | hy2
          · exact absurd hly hla
          · exact hbef y hy2 hly

/-- C8 amended: when the model is stuck and partial observability is enabled,
`pickAction` considers the directions whose *clamped* one-step target cell is
unobstructed (an off-grid raw target is clamped back into the grid rather than
excluded), and, whenever at least one direction is considered, immediately
returns a considered direction of maximal information score — strictly beating
every considered direction enumerated before it and at least tying every one
after it (i.e. ties break in UP/RIGHT/DOWN/LEFT order) — with mode "explore",
zero rollout iterations and empty estimates. -/
theorem c8_explore_fallback (env : Env) (cfg : Cfg) (pr : PRand) (N : ℕ)
    (hst : isStuck env = true) (hpo : cfg.partObs = true)
    (hleg : ∃ d ∈ DIRS, exploreLegalB env d = true) :
    (pickAction env cfg pr N).mode = Mode.explore ∧
    (pickAction env cfg pr N).iters = 0 ∧
    (pickAction env cfg pr N).estimates = [] ∧
    exploreLegalB env ((pickAction env cfg pr N).action) = true ∧
    ∃ l₁ l₂, DIRS = l₁ ++ (pickAction env cfg pr N).action :: l₂ ∧
      (∀ y ∈ l₁, exploreLegalB env y = true →
        unseenAroundFrom (exploreTarget env y) env cfg <
          unseenAroundFrom (exploreTarget env ((pickAction env cfg pr N).action)) env cfg) ∧
      (∀ y ∈ l₂, exploreLegalB env y = true →
        unseenAroundFrom (exploreTarget env y) env cfg ≤
          unseenAroundFrom (exploreTarget env ((pickAction env cfg pr N).action)) env cfg) := by
  rcases amFold_spec (exploreLegalB env) (exploreScoreW env cfg) DIRS Dir.up ⊥ with
    ⟨heq, hall⟩ | ⟨l₁, x, l₂, hsplit, hx, heq, hbot, hbef, haft⟩
  · obtain ⟨d, hdmem, hdleg⟩ := hleg
    have hcontra := hall d hdmem hdleg
    simp [exploreScoreW] at hcontra
  · have hcond : (isStuck env && cfg.partObs) = true := by rw [hst, hpo]; rfl
    have hpick : pickAction env cfg pr N = ⟨x, [], 0, Mode.explore⟩ := by
      unfold pickAction
      rw [if_pos hcond]
      dsimp only
      rw [heq]
      dsimp only
      rw [if_pos (show (⊥ : WithBot ℕ) < exploreScoreW env cfg x from WithBot.bot_lt_coe _)]
    rw [hpick]
    refine ⟨rfl, rfl, rfl, hx, l₁, l₂, hsplit, ?_, ?_⟩
    · intro y hy hly
      have := hbef y hy hly
      simpa [exploreScoreW, WithBot.coe_lt_coe] using this
    · intro y hy hly
      have := haft y hy hly
      simpa [exploreScoreW, WithBot.coe_le_coe] using this

/-- C8 witness: on the concrete stuck corner model `envC8` the fallback is
taken with UP (clamped to the agent's own cell) considered and returned. -/
theorem c8_explore_fallback_witness :
    (pickAction envC8 cfgC8 prC8 0).mode = Mode.explore ∧
    (pickAction envC8 cfgC8 prC8 0).iters = 0 ∧
    (pickAction envC8 cfgC8 prC8 0).estimates = [] ∧
    exploreLegalB envC8 ((pickAction envC8 cfgC8 prC8 0).action) = true ∧
    ∃ l₁ l₂, DIRS = l₁ ++ (pickAction envC8 cfgC8 prC8 0).action :: l₂ ∧
      (∀ y ∈ l₁, exploreLegalB envC8 y = true →
        unseenAroundFrom (exploreTarget envC8 y) envC8 cfgC8 <
          unseenAroundFrom (exploreTarget envC8 ((pickAction envC8 cfgC8 prC8 0).action)) envC8 cfgC8) ∧
      (∀ y ∈ l₂, exploreLegalB envC8 y = true →
        unseenAroundFrom (exploreTarget envC8 y) envC8 cfgC8 ≤
          unseenAroundFrom (exploreTarget envC8 ((pickAction envC8 cfgC8 prC8 0).action)) envC8 cfgC8) :=
  c8_explore_fallback envC8 cfgC8 prC8 0 (by decide) rfl (by decide)

/-- C8 counterexample: on the stuck corner model `envC8` no direction has an
in-bounds, unobstructed one-step target (the claim's considered set is empty),
yet `pickAction` still returns an explore decision — it clamps the off-grid
targets of UP and LEFT back onto the agent's own unobstructed cell and
considers them, returning UP. -/
theorem c8_counterexample :
    isStuck envC8 = true ∧ cfgC8.partObs = true ∧
    (∀ d ∈ DIRS, ¬ (inBounds envC8.width envC8.height (rawTarget envC8 d) ∧
      rawTarget envC8 d ∉ envC8.obstacles)) ∧
    (pickAction envC8 cfgC8 prC8 0).mode = Mode.explore ∧
    (pickAction envC8 cfgC8 prC8 0).action = Dir.up ∧
    (pickAction envC8 cfgC8 prC8 0).iters = 0 := by
  with_unfolding_all decide

/-- The first rollout of the anytime loop always samples UP, so after at least
one completed rollout UP has a nonzero sample count. -/
theorem sampleCount_up_pos (N : ℕ) (hN : N ≠ 0) : sampleCount N Dir.up ≠ 0 := by
  unfold sampleCount
  intro h0
  rw [List.length_eq_zero] at h0
  have h1 : (0 : ℕ) ∈ (List.range N).filter (fun i => decide (dirAt i = Dir.up)) :=
    List.mem_filter.mpr ⟨List.mem_range.mpr (Nat.pos_of_ne_zero hN), by decide⟩
  rw [h0] at h1
  exact absurd h1 (List.not_mem_nil 0)

/-- C6 amended: whenever the Monte-Carlo phase runs (`mode = "mc"`) and the
0.05-probability ε-override does not fire, the reported iteration count is `N`;
with `N = 0` (a zero or negative time budget) no rollout is performed and the
first-enumerated direction UP is returned without error; and with `N ≠ 0` the
returned direction always has at least one sample — a direction with zero
samples has mean `-Infinity` and never wins the mean-maximisation scan.  (The
un-amended claim fails because the ε-override can return a zero-sample
direction; see the counterexample.) -/
theorem c6_mc_selection (env : Env) (cfg : Cfg) (pr : PRand) (N : ℕ)
    (hmode : (pickAction env cfg pr N).mode = Mode.mc)
    (heps : ¬ (pr.epsRoll < (1/20 : ℚ))) :
    (pickAction env cfg pr N).iters = N ∧
    (N = 0 → (pickAction env cfg pr N).action = Dir.up) ∧
    (N ≠ 0 → sampleCount N ((pickAction env cfg pr N).action) ≠ 0) := by
  have hpick : pickAction env cfg pr N = mcDecision env cfg pr N := by
    unfold pickAction at hmode ⊢
    by_cases hcond : (isStuck env && cfg.partObs) = true
    · rw [if_pos hcond] at hmode ⊢
      dsimp only at hmode ⊢
      by_cases hb : (⊥ : WithBot ℕ) <
          (DIRS.foldl (amStep (exploreLegalB env) (exploreScoreW env cfg)) (Dir.up, ⊥)).2
      · rw [if_pos hb] at hmode
        simp at hmode
      · rw [if_neg hb]
    · rw [if_neg hcond]
  rw [hpick]
  unfold mcDecision
  dsimp only
  rw [if_neg heps]
  refine ⟨rfl, ?_, ?_⟩
  · intro hN0
    subst hN0
    rcases amFold_spec (fun _ => true) (meanScore env cfg pr 0) DIRS Dir.up ⊥ with
      ⟨heq, _⟩ | ⟨l₁, x, l₂, _, _, heq, hbot, _, _⟩
    · rw [heq]
    · rw [show meanScore env cfg pr 0 x = ⊥ from rfl] at hbot
      exact absurd hbot (lt_irrefl ⊥)
  · intro hN
    rcases amFold_spec (fun _ => true) (meanScore env cfg pr N) DIRS Dir.up ⊥ with
      ⟨heq, hall⟩ | ⟨l₁, x, l₂, hsplit, _, heq, hbot, _, _⟩
    · have hup := hall Dir.up (by decide) rfl
      have hbotup : meanScore env cfg pr N Dir.up = ⊥ := le_bot_iff.mp hup
      have hcount : sampleCount N Dir.up = 0 := by
        by_contra hc
        unfold meanScore at hbotup
        rw [if_neg hc] at hbotup
        exact WithBot.coe_ne_bot hbotup
      exact absurd hcount (sampleCount_up_pos N hN)
    · rw [heq]
      intro hc
      rw [show meanScore env cfg pr N x = ⊥ from by unfold meanScore; rw [if_pos hc]] at hbot
      exact absurd hbot (lt_irrefl ⊥)

/-- C6 witness: on the terminal 3×3 model with four completed rollouts and a
non-firing ε-roll, the planner runs in mc mode, reports 4 iterations, and
returns a sampled direction. -/
theorem c6_mc_selection_witness :
    (pickAction envC6 cfgC6 prC6w 4).iters = 4 ∧
    (4 = 0 → (pickAction envC6 cfgC6 prC6w 4).action = Dir.up) ∧
    (4 ≠ 0 → sampleCount 4 ((pickAction envC6 cfgC6 prC6w 4).action) ≠ 0) :=
  c6_mc_selection envC6 cfgC6 prC6w 4 (by with_unfolding_all decide) (by norm_num [prC6w])

/-- C6 counterexample: with one completed rollout (UP sampled once, every other
direction unsampled) and the ε-override firing, `pickAction` returns RIGHT,
a direction with zero rollout samples — refuting "a direction with zero samples
is never the returned action". -/
theorem c6_counterexample :
    sampleCount 1 Dir.up = 1 ∧ sampleCount 1 Dir.right = 0 ∧
    (pickAction envC6 cfgC6 prC6 1).action = Dir.right := by
  with_unfolding_all decide

/-- A terminal simulation is left untouched by the rollout loop. -/
theorem rolloutGo_done (cfg : Cfg) (a : Dir) (rr : RollRand) (ss : ℕ)
    (rs : Finset (ℤ × ℤ)) :
    ∀ (rem t : ℕ) (sim : Env) (total : ℚ) (hits : ℕ), sim.done = true →
      rolloutGo cfg a rr ss rs rem t sim total hits = (total, hits) := by
  intro rem
  cases rem with
  | zero => intro t sim total hits _; rfl
  | succ n =>
    intro t sim total hits h
    unfold rolloutGo
    rw [if_pos h]

/-- In episodic mode, a step that ends on the goal marks the model terminal. -/
theorem step_goal_done (sim : Env) (cfg : Cfg) (r : StepRand) (a : Dir)
    (hep : cfg.episodic = true) (hnd : sim.done = false)
    (hg : (stepEnvironment sim cfg r a).agent = (stepEnvironment sim cfg r a).goal) :
    (stepEnvironment sim cfg r a).done = true := by
  unfold stepEnvironment at hg ⊢
  rw [if_neg (by rw [hnd]; exact Bool.false_ne_true)] at hg ⊢
  dsimp only at hg ⊢
  rw [if_pos ⟨hep, hg⟩]

/-- In episodic mode the rollout loop adds the goal bonus at most once more. -/
theorem rolloutGo_hits_le (cfg : Cfg) (a : Dir) (rr : RollRand) (ss : ℕ)
    (rs : Finset (ℤ × ℤ)) (hep : cfg.episodic = true) :
    ∀ (rem t : ℕ) (sim : Env) (total : ℚ) (hits : ℕ),
      (rolloutGo cfg a rr ss rs rem t sim total hits).2 ≤ hits + 1 := by
  intro rem
  induction rem with
  | zero => intro t sim total hits; exact Nat.le_succ hits
  | succ n ih =>
    intro t sim total hits
    unfold rolloutGo
    by_cases hd : sim.done = true
    · rw [if_pos hd]
      exact Nat.le_succ hits
    · rw [if_neg hd]
      dsimp only
      set act := if t = 0 then a else DIRS.getD (rr.actIdx t % 4) Dir.up with hact
      set sim2 := stepEnvironment sim cfg (rr.stepR t) act with hsim2
      by_cases hg : sim2.agent = sim2.goal
      · rw [if_pos hg]
        have hdone2 : sim2.done = true :=
          step_goal_done sim cfg (rr.stepR t) act hep (Bool.not_eq_true _ |>.mp hd) hg
        rw [rolloutGo_done cfg a rr ss rs n (t + 1) sim2 _ _ hdone2]
      · rw [if_neg hg]
        exact ih (t + 1) sim2 _ hits

/-- C9 amended: in episodic mode the +5 goal bonus is added at most once per
rollout — on the tick the simulated agent reaches the goal the model turns
terminal and the loop stops.  Without episodic mode the bonus repeats on every
tick spent on the goal (see the counterexample). -/
theorem c9_goal_bonus_once (env : Env) (cfg : Cfg) (a : Dir) (horizon : ℕ)
    (rr : RollRand) (hep : cfg.episodic = true) :
    evalHits env cfg a horizon rr ≤ 1 := by
  unfold evalHits evaluateRun
  exact rolloutGo_hits_le cfg a rr _ _ hep horizon 0 _ 0 0

/-- C9 witness: the amended bound at a concrete episodic input. -/
theorem c9_goal_bonus_once_witness :
    evalHits envC9 { cfgC9 with episodic := true } Dir.right 2 rr0 ≤ 1 :=
  c9_goal_bonus_once envC9 { cfgC9 with episodic := true } Dir.right 2 rr0 rfl

/-- C9 counterexample: with episodic mode off, a rollout on the 2×1 strip
reaches the goal at its first tick (+5) and then stays on it at the second tick
(its random action UP is off-grid, a no-op), collecting the +5 bonus a second
time: the bonus count is 2 and both bonuses flow into the returned score. -/
theorem c9_counterexample :
    cfgC9.episodic = false ∧ evalHits envC9 cfgC9 Dir.right 2 rr0 = 2 ∧
    evaluateAction envC9 cfgC9 Dir.right 2 rr0 = 10 + 1/25 := by
  with_unfolding_all decide

/-- C7 amended: on a dynamic-obstacle tick (`tick % 3 = 0`), an obstacle whose
clamped destination is obstacle-occupied (per the pre-move set) or coincides
with the post-move agent or the goal stays at its current cell (and survives
into the new set provided its own cell is not the agent/goal/adversary cell);
an off-grid raw destination is clamped back, for an in-bounds obstacle onto its
own (obstacle-occupied) cell, hence also rejected.  The adversary's cell is
not a rejection cause: instead it is deleted from the moved set, so after the
phase no obstacle occupies it. -/
theorem c7_obstacle_rejection (env : Env) (cfg : Cfg) (r : StepRand) (act : Dir)
    (hdy : cfg.dynamicObstacles = true) (ht : env.tick % 3 = 0)
    (hdone : env.done = false) :
    (∀ o ∈ env.obstacles,
      (isBlockedOn env.width env.height env.obstacles (obstacleTarget env r o) ∨
        obstacleTarget env r o = moveAgent env (slippedAction cfg r act) ∨
        obstacleTarget env r o = env.goal) →
      o ≠ moveAgent env (slippedAction cfg r act) → o ≠ env.goal →
      (∀ p, env.adversary = some p → o ≠ p) →
      o ∈ (stepEnvironment env cfg r act).obstacles) ∧
    (∀ p, env.adversary = some p → p ∉ (stepEnvironment env cfg r act).obstacles) := by
  have hobs : (stepEnvironment env cfg r act).obstacles =
      dynPhase env r (moveAgent env (slippedAction cfg r act)) := by
    unfold stepEnvironment
    rw [if_neg (by rw [hdone]; exact Bool.false_ne_true)]
    dsimp only
    rw [if_pos ⟨hdy, ht⟩]
  constructor
  · intro o ho hrej hne_ag hne_goal hne_adv
    rw [hobs]
    have hmove : moveObstacle env (moveAgent env (slippedAction cfg r act)) r o = o := by
      unfold moveObstacle
      dsimp only
      rw [if_neg]
      rintro ⟨hnb, hag, hgl⟩
      rcases hrej with hb | hb | hb
      · exact hnb hb
      · exact hag hb.symm
      · exact hgl hb.symm
    have hin : o ∈ env.obstacles.image
        (moveObstacle env (moveAgent env (slippedAction cfg r act)) r) :=
      hmove ▸ Finset.mem_image_of_mem _ ho
    unfold dynPhase
    rcases hadv : env.adversary with _ | p
    · dsimp only
      exact Finset.mem_erase.mpr ⟨hne_goal, Finset.mem_erase.mpr ⟨hne_ag, hin⟩⟩
    · dsimp only
      exact Finset.mem_erase.mpr ⟨hne_adv p hadv,
        Finset.mem_erase.mpr ⟨hne_goal, Finset.mem_erase.mpr ⟨hne_ag, hin⟩⟩⟩
  · intro p hp
    rw [hobs]
    unfold dynPhase
    rw [hp]
    exact Finset.not_mem_erase p _

/-- C7 witness: on the two-obstacle model `envC7w` the obstacle at (1,1)
attempts RIGHT into the occupied cell (2,1), is rejected, and stays. -/
theorem c7_obstacle_rejection_witness :
    (1, 1) ∈ envC7w.obstacles ∧
    isBlockedOn envC7w.width envC7w.height envC7w.obstacles
      (obstacleTarget envC7w randA7 (1, 1)) ∧
    (1, 1) ∈ (stepEnvironment envC7w cfgA randA7 Dir.up).obstacles :=
  ⟨by decide, by decide,
    (c7_obstacle_rejection envC7w cfgA randA7 Dir.up rfl rfl rfl).1 (1, 1) (by decide)
      (Or.inl (by decide)) (by decide) (by decide)
      (fun p hp => by simp [envC7w, envA] at hp)⟩

/-- C7 counterexample: an obstacle whose destination coincides with the
adversary's cell is *not* rejected — on `envA` the single obstacle at (1,1)
moves RIGHT onto the adversary cell (2,1) (unblocked, not agent, not goal) and
is then deleted together with it, leaving the obstacle set empty instead of
keeping the obstacle at (1,1). -/
theorem c7_counterexample :
    cfgA.dynamicObstacles = true ∧ envA.tick % 3 = 0 ∧
    envA.adversary = some (2, 1) ∧ (1, 1) ∈ envA.obstacles ∧
    obstacleTarget envA randA7 (1, 1) = (2, 1) ∧
    ¬ isBlockedOn envA.width envA.height envA.obstacles (2, 1) ∧
    (stepEnvironment envA cfgA randA7 Dir.right).obstacles = ∅ := by
  with_unfolding_all decide

/-- With a nonnegative roll and zero slip probability, the slip never fires. -/
theorem slippedAction_zero (cfg : Cfg) (r : StepRand) (a : Dir)
    (hs : cfg.slipProb = 0) (h : 0 ≤ r.slipRoll) : slippedAction cfg r a = a := by
  unfold slippedAction
  rw [hs, if_neg (not_lt.mpr h)]

/-- With zero sensor noise and nonnegative rolls, the reveal phase does not
depend on the oracle. -/
theorem revealPhase_rand_irrel (env : Env) (cfg : Cfg) (ag : ℤ × ℤ)
    (r1 r2 : StepRand) (hn : cfg.sensorNoise = 0)
    (h1 : ∀ p, 0 ≤ r1.noiseRoll p) (h2 : ∀ p, 0 ≤ r2.noiseRoll p) :
    revealPhase env cfg r1 ag = revealPhase env cfg r2 ag := by
  unfold revealPhase
  split_ifs
  · congr 1
    apply Finset.filter_congr
    intro p _
    rw [hn]
    simp [not_lt.mpr (h1 p), not_lt.mpr (h2 p)]
  · rfl
  · rfl

/-- Without an adversary the adversary phase is a no-op with zero penalty. -/
theorem advPhase_none (env : Env) (cfg : Cfg) (r : StepRand) (obs : Finset (ℤ × ℤ))
    (ag : ℤ × ℤ) (h : env.adversary = none) : advPhase env cfg r obs ag = (none, 0) := by
  unfold advPhase
  rw [h]

/-- A step never creates an adversary. -/
theorem step_adv_none (env : Env) (cfg : Cfg) (r : StepRand) (a : Dir)
    (h : env.adversary = none) : (stepEnvironment env cfg r a).adversary = none := by
  by_cases hd : env.done = true
  · unfold stepEnvironment
    rw [if_pos hd]
    exact h
  · unfold stepEnvironment
    rw [if_neg hd]
    dsimp only
    rw [advPhase_none env cfg r _ _ h]

/-- One step is oracle-independent under zero slip, zero noise, no dynamic
obstacles and no adversary. -/
theorem step_rand_irrel (env : Env) (cfg : Cfg) (a : Dir) (r1 r2 : StepRand)
    (hs : cfg.slipProb = 0) (hn : cfg.sensorNoise = 0)
    (hdyn : cfg.dynamicObstacles = false) (hadv : env.adversary = none)
    (h1 : StepRandOK r1) (h2 : StepRandOK r2) :
    stepEnvironment env cfg r1 a = stepEnvironment env cfg r2 a := by
  by_cases hd : env.done = true
  · unfold stepEnvironment
    rw [if_pos hd, if_pos hd]
  · unfold stepEnvironment
    rw [if_neg hd, if_neg hd]
    dsimp only
    rw [slippedAction_zero cfg r1 a hs h1.1, slippedAction_zero cfg r2 a hs h2.1]
    rw [revealPhase_rand_irrel env cfg (moveAgent env a) r1 r2 hn h1.2 h2.2]
    rw [hdyn]
    have hfalse : ¬(false = true ∧ env.tick % 3 = 0) := by simp
    rw [if_neg hfalse, if_neg hfalse]
    rw [advPhase_none env cfg r1 env.obstacles (moveAgent env a) hadv,
      advPhase_none env cfg r2 env.obstacles (moveAgent env a) hadv]

/-- C4: determinism under zero randomness — with `slipProb = 0`,
`sensorNoise = 0`, dynamic obstacles off and no adversary, two runs of the same
action sequence from the same model under arbitrary (valid) oracle streams
produce identical models: every field, including `agent`, `obstacles`,
`observedCells`, `tick`, `cumulativeReward`, `terminal`, `recentPositions`,
`bestDistanceToGoal` and `bestDistanceTick`, coincides. -/
theorem c4_determinism (cfg : Cfg) (env : Env) (acts : List Dir)
    (r1 r2 : ℕ → StepRand) (hs : cfg.slipProb = 0) (hn : cfg.sensorNoise = 0)
    (hdyn : cfg.dynamicObstacles = false) (hadv : env.adversary = none)
    (h1 : ∀ i, StepRandOK (r1 i)) (h2 : ∀ i, StepRandOK (r2 i)) :
    runSeq cfg env r1 acts = runSeq cfg env r2 acts := by
  induction acts generalizing env r1 r2 with
  | nil => rfl
  | cons a rest ih =>
    unfold runSeq
    rw [step_rand_irrel env cfg a (r1 0) (r2 0) hs hn hdyn hadv (h1 0) (h2 0)]
    exact ih (stepEnvironment env cfg (r2 0) a) (fun i => r1 (i + 1)) (fun i => r2 (i + 1))
      (step_adv_none env cfg (r2 0) a hadv) (fun i => h1 (i + 1)) (fun i => h2 (i + 1))

/-- C4 witness: two concretely different oracle streams (all-zero rolls versus
`randB`'s nonzero rolls and indices) drive the same two-action run on `envC4`
to the same model. -/
theorem c4_determinism_witness :
    StepRandOK rand0 ∧ StepRandOK randB ∧
    runSeq cfgC4 envC4 (fun _ => rand0) actsC4 = runSeq cfgC4 envC4 (fun _ => randB) actsC4 :=
  ⟨⟨by norm_num [rand0], fun p => by norm_num [rand0]⟩,
   ⟨by norm_num [randB], fun p => by norm_num [randB]⟩,
   c4_determinism cfgC4 envC4 actsC4 (fun _ => rand0) (fun _ => randB) rfl rfl rfl rfl
     (fun _ => ⟨by norm_num [rand0], fun p => by norm_num [rand0]⟩)
     (fun _ => ⟨by norm_num [randB], fun p => by norm_num [randB]⟩)⟩
